import Mathlib

/-!
# Points / streak / bonus engine — shallow embedding

A shallow embedding of the gamification engine in `src/services/pointsService.ts`
(together with the persistence operations of `src/services/storageService.ts` it
relies on), and proofs of the specification's claims about it.

Modelling conventions:
* calendar dates (`YYYY-MM-DD` strings in the source) are modelled as integer
  day numbers; "yesterday" of day `d` is `d - 1`;
* JavaScript numbers are modelled as rationals (`ℚ`);
* `Math.round x` is `⌊x + 1/2⌋` (JavaScript rounds halves toward +∞);
* the JavaScript idiom `x || default` on an optional numeric field (which also
  replaces an explicit `0` by the default) is `jsOrNum`;
* the key-value store is a record of association lists keyed the way the
  source keys its storage entries; a `set` replaces the entry with that key;
* `throw` is modelled by returning `Except.error msg` together with the
  storage state at the moment of the throw (writes already performed stay).
-/

/-- JavaScript `x || d` on an optional numeric field: `undefined` and `0` both
fall back to the default `d`. -/
def jsOrNum (x : Option ℚ) (d : ℚ) : ℚ :=
  match x with
  | none => d
  | some v => if v = 0 then d else v

/-- JavaScript `Math.round`: nearest integer, halves toward positive infinity. -/
def jsRound (q : ℚ) : ℤ := ⌊q + 1/2⌋

/-- `Activity` (src/types/index.ts): only the fields the engine reads. -/
structure Activity where
  id : String
  name : String
  isNegative : Bool
  goalPoints : Option ℚ
  negativePointsPerMinute : Option ℚ
deriving DecidableEq, Repr

/-- `ActivityGoal` (src/types/index.ts). -/
structure ActivityGoal where
  activityId : String
  activityName : String
  minimumMinutes : ℚ
  enabled : Bool
deriving DecidableEq, Repr

/-- `TrackingSession` (src/types/index.ts): only the fields the engine reads. -/
structure TrackingSession where
  activityId : String
  durationSeconds : ℚ
  date : ℤ
deriving DecidableEq, Repr

/-- `Todo` (src/types/index.ts): `completedAt` is the calendar day of the
completion timestamp (the source compares `completedAt.split('T')[0]`). -/
structure Todo where
  id : String
  title : String
  completed : Bool
  completedAt : Option ℤ
  points : ℚ
deriving DecidableEq, Repr

/-- The `source` discriminator of a `PointBreakdown` row. -/
inductive SourceKind where
  | activity
  | todo
deriving DecidableEq, Repr

/-- `PointBreakdown` (src/types/index.ts). -/
structure PointBreakdown where
  source : SourceKind
  sourceId : String
  sourceName : String
  points : ℚ
  goalMet : Bool
  timeSpent : Option ℚ
  goalTime : Option ℚ
deriving DecidableEq, Repr

/-- `DailyPoints` (src/types/index.ts). -/
structure DailyPoints where
  date : ℤ
  earnedPoints : ℚ
  bonusApplied : ℚ
  totalPoints : ℚ
  reachedGoal : Bool
  breakdown : List PointBreakdown
deriving DecidableEq, Repr

/-- One `{date, earned, used}` entry of `WeeklyBonus.dailyBreakdown`. -/
structure DayBonusEntry where
  date : ℤ
  earned : ℚ
  used : ℚ
deriving DecidableEq, Repr

/-- `WeeklyBonus` (src/types/index.ts). -/
structure WeeklyBonus where
  weekStart : ℤ
  availableBonus : ℚ
  usedBonus : ℚ
  dailyBreakdown : List DayBonusEntry
deriving DecidableEq, Repr

/-- `StreakData` (src/types/index.ts); `lastUpdateDate` is `none` when the
stored string is not a date. -/
structure StreakData where
  currentStreak : ℤ
  longestStreak : ℤ
  lastUpdateDate : Option ℤ
deriving DecidableEq, Repr

/-- The persistent store plus the read-only collaborator data
(src/services/storageService.ts). `dailyPointsStore` is keyed by date,
`weeklyBonusStore` by week start; `currentWeekStart` is the Monday of the
current (wall-clock) week used by `getCurrentWeeklyBonus`. -/
structure Storage where
  activities : List Activity
  sessions : List TrackingSession
  todos : List Todo
  dailyGoals : List ActivityGoal
  dailyPointsStore : List DailyPoints
  weeklyBonusStore : List WeeklyBonus
  streakData : StreakData
  currentWeekStart : ℤ
deriving DecidableEq, Repr

/-- `storage.getDailyPoints(date)`. -/
def getDailyPoints (s : Storage) (date : ℤ) : Option DailyPoints :=
  s.dailyPointsStore.find? (fun dp => dp.date == date)

/-- `storage.saveDailyPoints(record)`: replaces the entry keyed by the
record's date. -/
def saveDailyPoints (s : Storage) (dp : DailyPoints) : Storage :=
  { s with dailyPointsStore := dp :: s.dailyPointsStore.filter (fun q => q.date != dp.date) }

/-- Lookup of the stored `WeeklyBonus` record for a given week start. -/
def getWeeklyBonusAt (s : Storage) (w : ℤ) : Option WeeklyBonus :=
  s.weeklyBonusStore.find? (fun wb => wb.weekStart == w)

/-- `storage.saveWeeklyBonus(record)`: replaces the entry keyed by the
record's week start. -/
def saveWeeklyBonus (s : Storage) (wb : WeeklyBonus) : Storage :=
  { s with weeklyBonusStore := wb :: s.weeklyBonusStore.filter (fun q => q.weekStart != wb.weekStart) }

/-- `storage.getCurrentWeeklyBonus()`: returns the current week's record,
creating and persisting `{availableBonus:0, usedBonus:0, dailyBreakdown:[]}`
when none exists. -/
def getCurrentWeeklyBonus (s : Storage) : WeeklyBonus × Storage :=
  match getWeeklyBonusAt s s.currentWeekStart with
  | some wb => (wb, s)
  | none =>
    let wb : WeeklyBonus :=
      { weekStart := s.currentWeekStart, availableBonus := 0, usedBonus := 0, dailyBreakdown := [] }
    (wb, saveWeeklyBonus s wb)

/-- `storage.getSessionsByDate(date)`. -/
def getSessionsByDate (s : Storage) (date : ℤ) : List TrackingSession :=
  s.sessions.filter (fun t => t.date == date)

/-- Total tracked seconds for one activity across the day's sessions
(`activitySessions.reduce((sum, s) => sum + s.durationSeconds, 0)`). -/
def totalSecondsFor (sessions : List TrackingSession) (activityId : String) : ℚ :=
  ((sessions.filter (fun t => t.activityId == activityId)).map
    (fun t => t.durationSeconds)).sum

/-- `goals.find(g => g.activityId === activity.id && g.enabled)`. -/
def findEnabledGoal (goals : List ActivityGoal) (activityId : String) : Option ActivityGoal :=
  goals.find? (fun g => g.activityId == activityId && g.enabled)

/-- The per-activity breakdown row pushed by the activity loop of
`calculateDailyPoints` (pointsService.ts lines 37-80): `none` when the loop
pushes no row for this activity. -/
def activityRow (goals : List ActivityGoal) (sessions : List TrackingSession)
    (a : Activity) : Option PointBreakdown :=
  let totalSeconds := totalSecondsFor sessions a.id
  if totalSeconds = 0 then none
  else
    match findEnabledGoal goals a.id, a.isNegative with
    | some goal, false =>
      let goalSeconds := goal.minimumMinutes * 60
      let goalMet := decide (goalSeconds ≤ totalSeconds)
      some { source := SourceKind.activity, sourceId := a.id, sourceName := a.name,
             points := if goalMet then jsOrNum a.goalPoints 10 else 0,
             goalMet := goalMet,
             timeSpent := some totalSeconds, goalTime := some goalSeconds }
    | _, true =>
      let minutes : ℤ := ⌊totalSeconds / 60⌋
      let pointsPerMinute := jsOrNum a.negativePointsPerMinute (1/2)
      some { source := SourceKind.activity, sourceId := a.id, sourceName := a.name,
             points := -((minutes : ℚ) * pointsPerMinute),
             goalMet := false,
             timeSpent := some totalSeconds, goalTime := none }
    | none, false => none

/-- `todos.filter(todo => todo.completed && completedDate === date)`. -/
def completedTodosForDay (todos : List Todo) (date : ℤ) : List Todo :=
  todos.filter (fun t => t.completed && t.completedAt == some date)

/-- The breakdown row pushed for one completed todo (`none` when
`todo.points <= 0`). -/
def todoRow (t : Todo) : Option PointBreakdown :=
  if 0 < t.points then
    some { source := SourceKind.todo, sourceId := t.id, sourceName := t.title,
           points := t.points, goalMet := true, timeSpent := none, goalTime := none }
  else none

/-- The full breakdown list built by `calculateDailyPoints`: activity rows in
activity order, then todo rows. -/
def dayBreakdown (activities : List Activity) (sessions : List TrackingSession)
    (todos : List Todo) (goals : List ActivityGoal) (date : ℤ) : List PointBreakdown :=
  activities.filterMap (activityRow goals sessions)
    ++ (completedTodosForDay todos date).filterMap todoRow

/-- The breakdown `calculateDailyPoints s date` computes, read off the store. -/
def storageDayBreakdown (s : Storage) (date : ℤ) : List PointBreakdown :=
  dayBreakdown s.activities (getSessionsByDate s date) s.todos s.dailyGoals date

/-- `totalEarnedPoints`: the raw (pre-rounding) signed sum of the breakdown. -/
def rawEarnedTotal (s : Storage) (date : ℤ) : ℚ :=
  ((storageDayBreakdown s date).map PointBreakdown.points).sum

/-- The pure core of `calculateDailyPoints` (pointsService.ts lines 22-120):
builds the record written for `date`, given the collaborator data and the
previously stored record. -/
def computeDailyPoints (date : ℤ) (activities : List Activity)
    (sessions : List TrackingSession) (todos : List Todo)
    (goals : List ActivityGoal) (existing : Option DailyPoints) : DailyPoints :=
  let breakdown := dayBreakdown activities sessions todos goals date
  let totalEarnedPoints := (breakdown.map PointBreakdown.points).sum
  let bonusApplied := jsOrNum (existing.map DailyPoints.bonusApplied) 0
  { date := date,
    earnedPoints := (jsRound totalEarnedPoints : ℚ),
    bonusApplied := bonusApplied,
    totalPoints := (jsRound (totalEarnedPoints + bonusApplied) : ℚ),
    reachedGoal := decide ((100 : ℤ) ≤ jsRound (totalEarnedPoints + bonusApplied)),
    breakdown := breakdown }

/-- `calculateDailyPoints(date)`: computes the day's record and persists it. -/
def calculateDailyPoints (s : Storage) (date : ℤ) : DailyPoints × Storage :=
  let dp := computeDailyPoints date s.activities (getSessionsByDate s date)
    s.todos s.dailyGoals (getDailyPoints s date)
  (dp, saveDailyPoints s dp)

/-- `getYesterday(date)`. -/
def getYesterday (date : ℤ) : ℤ := date - 1

/-- The pure streak transition of `updateStreak`
(pointsService.ts lines 220-257). -/
def streakStep (sd : StreakData) (date : ℤ) (dp : DailyPoints) : StreakData :=
  let yesterday := getYesterday date
  if 100 ≤ dp.totalPoints then
    let cur :=
      if sd.lastUpdateDate = some yesterday then sd.currentStreak + 1
      else if sd.lastUpdateDate = some date then sd.currentStreak
      else 1
    { currentStreak := cur,
      longestStreak := if sd.longestStreak < cur then cur else sd.longestStreak,
      lastUpdateDate := some date }
  else
    if sd.lastUpdateDate = some yesterday ∧ 0 < sd.currentStreak then
      { sd with currentStreak := 0, lastUpdateDate := some date }
    else sd

/-- `updateStreak(date, dailyPoints)`: applies the transition, persists the
streak record, and returns the new current streak. -/
def updateStreak (s : Storage) (date : ℤ) (dp : DailyPoints) : ℤ × Storage :=
  let sd := streakStep s.streakData date dp
  (sd.currentStreak, { s with streakData := sd })

/-- `calculateBonusEarned(dailyPoints)` (pointsService.ts lines 178-183). -/
def calculateBonusEarned (dp : DailyPoints) : ℚ :=
  if dp.totalPoints ≤ 100 then 0 else dp.totalPoints - 100

/-- The `dailyBreakdown` upsert of `addBonusToWeek`: bump `earned` of the
first entry for `date`, or push a fresh `{date, earned, used:0}` entry. -/
def bumpEarned : List DayBonusEntry → ℤ → ℚ → List DayBonusEntry
  | [], date, amount => [{ date := date, earned := amount, used := 0 }]
  | e :: rest, date, amount =>
    if e.date = date then { e with earned := e.earned + amount } :: rest
    else e :: bumpEarned rest date amount

/-- The `dailyBreakdown` upsert of `applyBonusToDay`: bump `used` of the
first entry for `date`, or push a fresh `{date, earned:0, used}` entry. -/
def bumpUsed : List DayBonusEntry → ℤ → ℚ → List DayBonusEntry
  | [], date, amount => [{ date := date, earned := 0, used := amount }]
  | e :: rest, date, amount =>
    if e.date = date then { e with used := e.used + amount } :: rest
    else e :: bumpUsed rest date amount

/-- `addBonusToWeek(date, bonusEarned)` (pointsService.ts lines 188-213). -/
def addBonusToWeek (s : Storage) (date : ℤ) (bonusEarned : ℚ) : Storage :=
  if bonusEarned ≤ 0 then s
  else
    let wbs := getCurrentWeeklyBonus s
    let weeklyBonus := wbs.1
    saveWeeklyBonus wbs.2
      { weeklyBonus with
        availableBonus := min (weeklyBonus.availableBonus + bonusEarned) 200,
        dailyBreakdown := bumpEarned weeklyBonus.dailyBreakdown date bonusEarned }

/-- `applyBonusToDay(date, bonusAmount)` (pointsService.ts lines 125-172).
Returns the outcome (`Except.error msg` models a throw) together with the
storage state when the call returns or throws. -/
def applyBonusToDay (s : Storage) (date : ℤ) (bonusAmount : ℚ) :
    Except String Unit × Storage :=
  if bonusAmount ≤ 0 then
    (Except.error "Bonus amount must be positive", s)
  else
    let wbs := getCurrentWeeklyBonus s
    let weeklyBonus := wbs.1
    let s1 := wbs.2
    if weeklyBonus.availableBonus < bonusAmount then
      (Except.error "Not enough bonus available.", s1)
    else
      let dps :=
        match getDailyPoints s1 date with
        | some dp => (dp, s1)
        | none => calculateDailyPoints s1 date
      let dailyPoints := dps.1
      let s2 := dps.2
      let newBonus := dailyPoints.bonusApplied + bonusAmount
      let dp' : DailyPoints :=
        { dailyPoints with
          bonusApplied := newBonus,
          totalPoints := dailyPoints.earnedPoints + newBonus,
          reachedGoal := decide (100 ≤ dailyPoints.earnedPoints + newBonus) }
      let wb' : WeeklyBonus :=
        { weeklyBonus with
          availableBonus := weeklyBonus.availableBonus - bonusAmount,
          usedBonus := weeklyBonus.usedBonus + bonusAmount,
          dailyBreakdown := bumpUsed weeklyBonus.dailyBreakdown date bonusAmount }
      let s3 := saveWeeklyBonus (saveDailyPoints s2 dp') wb'
      (Except.ok (), (updateStreak s3 date dp').2)

/-- `getAvailableBonus()`. -/
def getAvailableBonus (s : Storage) : ℚ × Storage :=
  let wbs := getCurrentWeeklyBonus s
  (wbs.1.availableBonus, wbs.2)

/-- `recalculateDayPoints(date)` (pointsService.ts lines 270-281). -/
def recalculateDayPoints (s : Storage) (date : ℤ) : Storage :=
  let dps := calculateDailyPoints s date
  let dailyPoints := dps.1
  let s1 := dps.2
  let bonusEarned := calculateBonusEarned dailyPoints
  let s2 := if 0 < bonusEarned then addBonusToWeek s1 date bonusEarned else s1
  (updateStreak s2 date dailyPoints).2

/-- `checkAndResetWeeklyBonus()`. -/
def checkAndResetWeeklyBonus (s : Storage) : Storage :=
  (getCurrentWeeklyBonus s).2

/-! ## Specification-side definitions and common test fixtures -/

/-- The streak transition table as the specification states it: on a
goal-reached day the streak continues from yesterday, stays on a same-day
re-entry, or restarts at 1, with `lastUpdateDate := date` and
`longestStreak := max longestStreak currentStreak` in every goal-reached
case; on a failed day the streak resets to 0 exactly when yesterday was the
last update and the streak was positive, and otherwise nothing changes. -/
def streakTransitionTable (sd : StreakData) (date : ℤ) (dp : DailyPoints) : StreakData :=
  if 100 ≤ dp.totalPoints then
    let cur :=
      if sd.lastUpdateDate = some (date - 1) then sd.currentStreak + 1
      else if sd.lastUpdateDate = some date then sd.currentStreak
      else 1
    { currentStreak := cur,
      longestStreak := max sd.longestStreak cur,
      lastUpdateDate := some date }
  else if sd.lastUpdateDate = some (date - 1) ∧ 0 < sd.currentStreak then
    { currentStreak := 0, longestStreak := sd.longestStreak, lastUpdateDate := some date }
  else sd

/-- A bare daily record with a given total, for concrete streak scenarios. -/
def mkDailyTotal (d : ℤ) (total : ℚ) : DailyPoints :=
  { date := d, earnedPoints := total, bonusApplied := 0, totalPoints := total,
    reachedGoal := decide ((100 : ℚ) ≤ total), breakdown := [] }

/-- A small concrete storage state used to witness the theorems. -/
def sampleStorage : Storage :=
  { activities := [], sessions := [], todos := [], dailyGoals := [],
    dailyPointsStore := [], weeklyBonusStore := [],
    streakData := { currentStreak := 0, longestStreak := 0, lastUpdateDate := some 0 },
    currentWeekStart := 7 }

lemma streakStep_eq_table (sd : StreakData) (date : ℤ) (dp : DailyPoints) :
    streakStep sd date dp = streakTransitionTable sd date dp := by
  unfold streakStep streakTransitionTable getYesterday
  by_cases hg : 100 ≤ dp.totalPoints
  · simp only [if_pos hg, StreakData.mk.injEq]
    refine ⟨trivial, ?_, trivial⟩
    rw [max_def]
    split_ifs <;> omega
  · simp only [if_neg hg]

lemma streakStep_invariant (c l : ℤ) (u : Option ℤ) (date : ℤ) (dp : DailyPoints)
    (h0 : 0 ≤ c) (h1 : c ≤ l) :
    0 ≤ (streakStep ⟨c, l, u⟩ date dp).currentStreak
      ∧ l ≤ (streakStep ⟨c, l, u⟩ date dp).longestStreak
      ∧ (streakStep ⟨c, l, u⟩ date dp).currentStreak
          ≤ (streakStep ⟨c, l, u⟩ date dp).longestStreak := by
  simp only [streakStep, getYesterday]
  split_ifs <;> simp_all <;> omega

/-! ## C1 -/

/-- C1: for every streak state and daily record, `updateStreak` performs
exactly the spec's transition: on a goal-reached day the streak continues,
stays (same-day), or restarts at 1, with `lastUpdateDate := date` and
`longestStreak := max longestStreak currentStreak`; on a failed day it
resets to 0 exactly when yesterday was the last update and the streak was
positive. Three consecutive goal days from a gap state give streaks 1, 2, 3
with longest 3, a failed fourth day resets to 0, and a goal day after a
skipped day restarts at 1. -/
theorem updateStreak_matches_transition_table :
    (∀ (s : Storage) (date : ℤ) (dp : DailyPoints),
        (updateStreak s date dp).2.streakData = streakTransitionTable s.streakData date dp
          ∧ (updateStreak s date dp).1 = (streakTransitionTable s.streakData date dp).currentStreak)
    ∧ (let sd0 : StreakData := { currentStreak := 0, longestStreak := 0, lastUpdateDate := some 0 }
       let s1 := streakStep sd0 10 (mkDailyTotal 10 100)
       let s2 := streakStep s1 11 (mkDailyTotal 11 100)
       let s3 := streakStep s2 12 (mkDailyTotal 12 100)
       let s4 := streakStep s3 13 (mkDailyTotal 13 50)
       let s6 := streakStep s4 15 (mkDailyTotal 15 100)
       s1.currentStreak = 1 ∧ s2.currentStreak = 2 ∧ s3.currentStreak = 3
         ∧ s3.longestStreak = 3 ∧ s4.currentStreak = 0 ∧ s4.longestStreak = 3
         ∧ s6.currentStreak = 1 ∧ s6.longestStreak = 3) := by
  constructor
  · intro s date dp
    constructor
    · show streakStep s.streakData date dp = _
      exact streakStep_eq_table s.streakData date dp
    · show (streakStep s.streakData date dp).currentStreak = _
      rw [streakStep_eq_table]
  · decide

/-! ## C8 -/

/-- C8: `updateStreak` is idempotent under same-day re-entry — with the goal
reached both times, the second call for the same date leaves the whole
storage state exactly as after the first call. -/
theorem updateStreak_idempotent_same_day (s : Storage) (date : ℤ)
    (dp1 dp2 : DailyPoints) (h1 : 100 ≤ dp1.totalPoints) (h2 : 100 ≤ dp2.totalPoints) :
    (updateStreak (updateStreak s date dp1).2 date dp2).2 = (updateStreak s date dp1).2 := by
  show ({ { s with streakData := streakStep s.streakData date dp1 } with
      streakData := streakStep (streakStep s.streakData date dp1) date dp2 } : Storage) = _
  have hne : ((some date : Option ℤ) = some (date - 1)) ↔ False := by
    simp only [Option.some.injEq, iff_false]
    omega
  have key : streakStep (streakStep s.streakData date dp1) date dp2
      = streakStep s.streakData date dp1 := by
    rw [streakStep_eq_table, streakStep_eq_table]
    simp only [streakTransitionTable, if_pos h1, if_pos h2, hne, if_false,
      StreakData.mk.injEq, eq_self_iff_true, true_and, and_true, if_true]
    exact max_eq_left (le_max_right _ _)
  rw [key]
  rfl

/-- Witness for C8 at a concrete state and date. -/
theorem updateStreak_idempotent_same_day_witness :
    (100 : ℚ) ≤ (mkDailyTotal 5 120).totalPoints
      ∧ (updateStreak (updateStreak sampleStorage 5 (mkDailyTotal 5 120)).2 5
          (mkDailyTotal 5 120)).2 = (updateStreak sampleStorage 5 (mkDailyTotal 5 120)).2 :=
  ⟨by decide,
   updateStreak_idempotent_same_day sampleStorage 5 (mkDailyTotal 5 120)
     (mkDailyTotal 5 120) (by decide) (by decide)⟩

/-! ## C10 -/

/-- C10: every `updateStreak` call preserves the streak invariant — starting
from a state with `0 ≤ currentStreak ≤ longestStreak`, after the call
`currentStreak` is still non-negative, `longestStreak` has not decreased,
and `currentStreak ≤ longestStreak` still holds. -/
theorem updateStreak_preserves_streak_invariant (s : Storage) (date : ℤ)
    (dp : DailyPoints) (h0 : 0 ≤ s.streakData.currentStreak)
    (h1 : s.streakData.currentStreak ≤ s.streakData.longestStreak) :
    0 ≤ ((updateStreak s date dp).2).streakData.currentStreak
      ∧ s.streakData.longestStreak ≤ ((updateStreak s date dp).2).streakData.longestStreak
      ∧ ((updateStreak s date dp).2).streakData.currentStreak
          ≤ ((updateStreak s date dp).2).streakData.longestStreak := by
  show 0 ≤ (streakStep s.streakData date dp).currentStreak
      ∧ s.streakData.longestStreak ≤ (streakStep s.streakData date dp).longestStreak
      ∧ (streakStep s.streakData date dp).currentStreak
          ≤ (streakStep s.streakData date dp).longestStreak
  exact streakStep_invariant s.streakData.currentStreak s.streakData.longestStreak
    s.streakData.lastUpdateDate date dp h0 h1

/-- Witness for C10 at a concrete state and input. -/
theorem updateStreak_preserves_streak_invariant_witness :
    ((0 : ℤ) ≤ sampleStorage.streakData.currentStreak
        ∧ sampleStorage.streakData.currentStreak ≤ sampleStorage.streakData.longestStreak)
      ∧ (0 ≤ ((updateStreak sampleStorage 5 (mkDailyTotal 5 120)).2).streakData.currentStreak
        ∧ sampleStorage.streakData.longestStreak
            ≤ ((updateStreak sampleStorage 5 (mkDailyTotal 5 120)).2).streakData.longestStreak
        ∧ ((updateStreak sampleStorage 5 (mkDailyTotal 5 120)).2).streakData.currentStreak
            ≤ ((updateStreak sampleStorage 5 (mkDailyTotal 5 120)).2).streakData.longestStreak) :=
  ⟨⟨by decide, by decide⟩,
   updateStreak_preserves_streak_invariant sampleStorage 5 (mkDailyTotal 5 120)
     (by decide) (by decide)⟩

/-! ## C9 -/

/-- C9: `calculateBonusEarned` is the pure surplus `max 0 (totalPoints - 100)`,
and `recalculateDayPoints` is exactly: recompute the day's points, add the
surplus to the week if and only if it is positive, then update the streak with
the same in-hand result. -/
theorem calculateBonusEarned_and_recalculate_sequence :
    (∀ dp : DailyPoints, calculateBonusEarned dp = max 0 (dp.totalPoints - 100))
    ∧ (∀ (s : Storage) (date : ℤ),
        recalculateDayPoints s date =
          (updateStreak
            (if 0 < calculateBonusEarned (calculateDailyPoints s date).1
             then addBonusToWeek (calculateDailyPoints s date).2 date
                    (calculateBonusEarned (calculateDailyPoints s date).1)
             else (calculateDailyPoints s date).2)
            date (calculateDailyPoints s date).1).2) := by
  constructor
  · intro dp
    unfold calculateBonusEarned
    split_ifs with h
    · exact (max_eq_left (by linarith)).symm
    · exact (max_eq_right (by linarith)).symm
  · intro s date
    rfl

/-! ## C5 -/

/-- C5: recomputation never discards previously applied bonus — the record
written by `calculateDailyPoints` keeps the stored `bonusApplied` (0 when no
record exists), its `totalPoints` is the freshly earned raw sum plus that
bonus (rounded), `reachedGoal` is `totalPoints >= 100`, and the earned points
and breakdown are freshly recomputed; the record is persisted for the date. -/
theorem calculateDailyPoints_preserves_bonusApplied (s : Storage) (date : ℤ) :
    ((calculateDailyPoints s date).1.bonusApplied
        = (match getDailyPoints s date with
           | some prior => prior.bonusApplied
           | none => 0))
      ∧ (calculateDailyPoints s date).1.totalPoints
          = ((jsRound (rawEarnedTotal s date + (calculateDailyPoints s date).1.bonusApplied) : ℤ) : ℚ)
      ∧ ((calculateDailyPoints s date).1.reachedGoal = true
          ↔ 100 ≤ (calculateDailyPoints s date).1.totalPoints)
      ∧ (calculateDailyPoints s date).1.earnedPoints = ((jsRound (rawEarnedTotal s date) : ℤ) : ℚ)
      ∧ (calculateDailyPoints s date).1.breakdown = storageDayBreakdown s date
      ∧ getDailyPoints (calculateDailyPoints s date).2 date = some (calculateDailyPoints s date).1 := by
  have hbonus : (calculateDailyPoints s date).1.bonusApplied
      = (match getDailyPoints s date with
         | some prior => prior.bonusApplied
         | none => 0) := by
    show jsOrNum ((getDailyPoints s date).map DailyPoints.bonusApplied) 0 = _
    cases h : getDailyPoints s date with
    | none => rfl
    | some prior =>
      show (if prior.bonusApplied = 0 then 0 else prior.bonusApplied) = prior.bonusApplied
      split_ifs with hz
      · exact hz.symm
      · rfl
  refine ⟨hbonus, ?_, ?_, rfl, rfl, ?_⟩
  · show ((jsRound (rawEarnedTotal s date
        + jsOrNum ((getDailyPoints s date).map DailyPoints.bonusApplied) 0) : ℤ) : ℚ) = _
    rw [show jsOrNum ((getDailyPoints s date).map DailyPoints.bonusApplied) 0
        = (calculateDailyPoints s date).1.bonusApplied from rfl, hbonus]
  · show (decide ((100 : ℤ) ≤ jsRound (rawEarnedTotal s date
        + jsOrNum ((getDailyPoints s date).map DailyPoints.bonusApplied) 0)) = true)
      ↔ (100 : ℚ) ≤ ((jsRound (rawEarnedTotal s date
        + jsOrNum ((getDailyPoints s date).map DailyPoints.bonusApplied) 0) : ℤ) : ℚ)
    rw [decide_eq_true_eq]
    exact_mod_cast Iff.rfl
  · show ((calculateDailyPoints s date).1 ::
        s.dailyPointsStore.filter (fun q => q.date != (calculateDailyPoints s date).1.date)).find?
          (fun dp => dp.date == date) = _
    rw [List.find?_cons_of_pos]
    show ((calculateDailyPoints s date).1.date == date) = true
    exact beq_self_eq_true date

/-! ## C7 -/

/-- A storage state with a single negative activity (rate 1/2) and a single
180-second session on day 3: the raw sum is exactly -3/2. -/
def negOnlyStorage : Storage :=
  { activities := [{ id := "soc", name := "Social media", isNegative := true,
                     goalPoints := none, negativePointsPerMinute := some (1/2) }],
    sessions := [{ activityId := "soc", durationSeconds := 180, date := 3 }],
    todos := [], dailyGoals := [], dailyPointsStore := [], weeklyBonusStore := [],
    streakData := { currentStreak := 0, longestStreak := 0, lastUpdateDate := some 0 },
    currentWeekStart := 0 }

/-- C7 counterexample: a raw sum of -3/2 yields `earnedPoints = -1`
(JavaScript `Math.round` sends -1.5 to -1), not -2 as the
round-half-away-from-zero claim requires. -/
theorem calculateDailyPoints_not_half_away_from_zero :
    rawEarnedTotal negOnlyStorage 3 = -(3/2)
      ∧ (calculateDailyPoints negOnlyStorage 3).1.earnedPoints = -1
      ∧ ¬((calculateDailyPoints negOnlyStorage 3).1.earnedPoints = -2) := by
  have hraw : rawEarnedTotal negOnlyStorage 3 = -(3/2) := by
    norm_num [rawEarnedTotal, storageDayBreakdown, dayBreakdown, negOnlyStorage,
      getSessionsByDate, completedTodosForDay, activityRow, totalSecondsFor,
      findEnabledGoal, todoRow, jsOrNum, List.filterMap_cons, List.filterMap_nil,
      List.filter_cons, List.filter_nil, List.map_cons, List.map_nil,
      List.sum_cons, List.sum_nil, List.find?_nil]
  have he : (calculateDailyPoints negOnlyStorage 3).1.earnedPoints
      = ((jsRound (rawEarnedTotal negOnlyStorage 3) : ℤ) : ℚ) := rfl
  rw [hraw] at he
  have hr : (jsRound (-(3/2) : ℚ) : ℤ) = -1 := by
    unfold jsRound
    norm_num
  rw [hr] at he
  refine ⟨hraw, ?_, ?_⟩
  · rw [he]
    norm_num
  · rw [he]
    norm_num

/-- C7 (amended): `earnedPoints` is the raw signed breakdown sum rounded to
the nearest integer with halves toward positive infinity (so -1.5 yields -1),
`totalPoints` is `round(raw + bonusApplied)` under the same rounding, and
`reachedGoal` is `totalPoints >= 100` — for every input, including negative
raw sums. -/
theorem calculateDailyPoints_rounding (s : Storage) (date : ℤ) :
    (∃ n : ℤ, (calculateDailyPoints s date).1.earnedPoints = (n : ℚ)
        ∧ (n : ℚ) - 1/2 ≤ rawEarnedTotal s date
        ∧ rawEarnedTotal s date < (n : ℚ) + 1/2)
    ∧ (∃ m : ℤ, (calculateDailyPoints s date).1.totalPoints = (m : ℚ)
        ∧ (m : ℚ) - 1/2 ≤ rawEarnedTotal s date + (calculateDailyPoints s date).1.bonusApplied
        ∧ rawEarnedTotal s date + (calculateDailyPoints s date).1.bonusApplied < (m : ℚ) + 1/2)
    ∧ ((calculateDailyPoints s date).1.reachedGoal = true
        ↔ 100 ≤ (calculateDailyPoints s date).1.totalPoints) := by
  have bound : ∀ q : ℚ, ((jsRound q : ℤ) : ℚ) - 1/2 ≤ q ∧ q < ((jsRound q : ℤ) : ℚ) + 1/2 := by
    intro q
    unfold jsRound
    constructor
    · have h := Int.floor_le (q + 1/2)
      linarith
    · have h := Int.lt_floor_add_one (q + 1/2)
      linarith
  refine ⟨⟨jsRound (rawEarnedTotal s date), rfl, (bound _).1, (bound _).2⟩, ?_, ?_⟩
  · exact ⟨jsRound (rawEarnedTotal s date + (calculateDailyPoints s date).1.bonusApplied),
      rfl, (bound _).1, (bound _).2⟩
  · show (decide ((100 : ℤ) ≤ jsRound (rawEarnedTotal s date
        + jsOrNum ((getDailyPoints s date).map DailyPoints.bonusApplied) 0)) = true)
      ↔ (100 : ℚ) ≤ ((jsRound (rawEarnedTotal s date
        + jsOrNum ((getDailyPoints s date).map DailyPoints.bonusApplied) 0) : ℤ) : ℚ)
    rw [decide_eq_true_eq]
    exact_mod_cast Iff.rfl

/-! ## C2 -/

/-- C2: the per-activity contribution of `calculateDailyPoints` is exactly as
specified — a non-negative activity with an enabled goal earns `goalPoints`
(default 10) all-or-nothing against `minimumMinutes * 60` with a breakdown row
carrying `timeSpent` and `goalTime`; a negative activity earns
`-(floor(totalSeconds/60) * negativePointsPerMinute)` (default rate 1/2) with
`goalMet = false` and no `goalTime`; a non-negative activity without an
enabled goal yields no row; an activity with zero tracked seconds yields no
row; and the day's breakdown is exactly these rows followed by the todo rows. -/
theorem activityRow_contribution_cases :
    (∀ (goals : List ActivityGoal) (sessions : List TrackingSession) (a : Activity)
        (g : ActivityGoal), a.isNegative = false →
        findEnabledGoal goals a.id = some g →
        totalSecondsFor sessions a.id ≠ 0 →
        activityRow goals sessions a = some
          { source := SourceKind.activity, sourceId := a.id, sourceName := a.name,
            points := if g.minimumMinutes * 60 ≤ totalSecondsFor sessions a.id
                      then jsOrNum a.goalPoints 10 else 0,
            goalMet := decide (g.minimumMinutes * 60 ≤ totalSecondsFor sessions a.id),
            timeSpent := some (totalSecondsFor sessions a.id),
            goalTime := some (g.minimumMinutes * 60) })
    ∧ (∀ (goals : List ActivityGoal) (sessions : List TrackingSession) (a : Activity),
        a.isNegative = true →
        totalSecondsFor sessions a.id ≠ 0 →
        activityRow goals sessions a = some
          { source := SourceKind.activity, sourceId := a.id, sourceName := a.name,
            points := -((⌊totalSecondsFor sessions a.id / 60⌋ : ℚ)
                        * jsOrNum a.negativePointsPerMinute (1/2)),
            goalMet := false,
            timeSpent := some (totalSecondsFor sessions a.id), goalTime := none })
    ∧ (∀ (goals : List ActivityGoal) (sessions : List TrackingSession) (a : Activity),
        a.isNegative = false →
        findEnabledGoal goals a.id = none →
        activityRow goals sessions a = none)
    ∧ (∀ (goals : List ActivityGoal) (sessions : List TrackingSession) (a : Activity),
        totalSecondsFor sessions a.id = 0 →
        activityRow goals sessions a = none)
    ∧ (∀ (s : Storage) (date : ℤ),
        (calculateDailyPoints s date).1.breakdown
          = s.activities.filterMap (activityRow s.dailyGoals (getSessionsByDate s date))
            ++ (completedTodosForDay s.todos date).filterMap todoRow) := by
  refine ⟨?_, ?_, ?_, ?_, ?_⟩
  · intro goals sessions a g hneg hfind ht
    simp only [activityRow, if_neg ht, hfind, hneg]
    simp [decide_eq_true_eq]
  · intro goals sessions a hneg ht
    simp only [activityRow, if_neg ht, hneg]
  · intro goals sessions a hneg hfind
    simp only [activityRow, hfind, hneg]
    split_ifs <;> rfl
  · intro goals sessions a ht
    simp only [activityRow, if_pos ht]
  · intro s date
    rfl

/-- Fixture: an enabled 30-minute goal for activity "med". -/
def wGoal : ActivityGoal :=
  { activityId := "med", activityName := "Meditation", minimumMinutes := 30, enabled := true }

/-- Fixture: a positive activity with a goal worth 10 points. -/
def wAct : Activity :=
  { id := "med", name := "Meditation", isNegative := false,
    goalPoints := some 10, negativePointsPerMinute := none }

/-- Fixture: a negative activity at the default 1/2 point per minute. -/
def wNegAct : Activity :=
  { id := "soc", name := "Social media", isNegative := true,
    goalPoints := none, negativePointsPerMinute := some (1/2) }

/-- Fixture: a 1800-second session for "med". -/
def wSession : TrackingSession :=
  { activityId := "med", durationSeconds := 1800, date := 3 }

/-- Fixture: a 125-second session for "soc". -/
def wNegSession : TrackingSession :=
  { activityId := "soc", durationSeconds := 125, date := 3 }

/-- Witness for C2: each of the four per-activity cases evaluated concretely. -/
theorem activityRow_contribution_cases_witness :
    activityRow [wGoal] [wSession] wAct = some
      { source := SourceKind.activity, sourceId := "med", sourceName := "Meditation",
        points := 10, goalMet := true, timeSpent := some 1800, goalTime := some 1800 }
    ∧ activityRow [] [wNegSession] wNegAct = some
      { source := SourceKind.activity, sourceId := "soc", sourceName := "Social media",
        points := -1, goalMet := false, timeSpent := some 125, goalTime := none }
    ∧ activityRow [] [wSession] wAct = none
    ∧ activityRow [wGoal] [] wAct = none := by
  have ht1 : totalSecondsFor [wSession] wAct.id ≠ 0 := by
    norm_num [totalSecondsFor, wSession, wAct, List.filter_cons, List.filter_nil,
      List.map_cons, List.map_nil, List.sum_cons, List.sum_nil]
  have ht2 : totalSecondsFor [wNegSession] wNegAct.id ≠ 0 := by
    norm_num [totalSecondsFor, wNegSession, wNegAct, List.filter_cons, List.filter_nil,
      List.map_cons, List.map_nil, List.sum_cons, List.sum_nil]
  refine ⟨?_, ?_, ?_, ?_⟩
  · rw [activityRow_contribution_cases.1 [wGoal] [wSession] wAct wGoal rfl rfl ht1]
    norm_num [totalSecondsFor, wSession, wAct, wGoal, jsOrNum, List.filter_cons,
      List.filter_nil, List.map_cons, List.map_nil, List.sum_cons, List.sum_nil]
  · rw [activityRow_contribution_cases.2.1 [] [wNegSession] wNegAct rfl ht2]
    norm_num [totalSecondsFor, wNegSession, wNegAct, jsOrNum, List.filter_cons,
      List.filter_nil, List.map_cons, List.map_nil, List.sum_cons, List.sum_nil]
  · exact activityRow_contribution_cases.2.2.1 [] [wSession] wAct rfl rfl
  · exact activityRow_contribution_cases.2.2.2.1 [wGoal] [] wAct rfl

/-! ## Storage lookup lemmas -/

lemma find?_filter_of_imp {α : Type} (l : List α) (p q : α → Bool)
    (h : ∀ x, p x = true → q x = true) :
    (l.filter q).find? p = l.find? p := by
  induction l with
  | nil => rfl
  | cons x xs ih =>
    by_cases hq : q x = true
    · rw [List.filter_cons_of_pos hq]
      by_cases hp : p x = true
      · rw [List.find?_cons_of_pos _ hp, List.find?_cons_of_pos _ hp]
      · rw [List.find?_cons_of_neg _ (by simpa using hp),
          List.find?_cons_of_neg _ (by simpa using hp), ih]
    · have hp : p x = false := by
        cases hpx : p x
        · rfl
        · exact absurd (h x hpx) hq
      rw [List.filter_cons_of_neg (by simpa using hq),
        List.find?_cons_of_neg _ (by simp [hp]), ih]

lemma getWeeklyBonusAt_save_self (s : Storage) (wb : WeeklyBonus) :
    getWeeklyBonusAt (saveWeeklyBonus s wb) wb.weekStart = some wb := by
  unfold getWeeklyBonusAt saveWeeklyBonus
  exact List.find?_cons_of_pos _ (by simp)

lemma getWeeklyBonusAt_save_other (s : Storage) (wb : WeeklyBonus) (w : ℤ)
    (hw : w ≠ wb.weekStart) :
    getWeeklyBonusAt (saveWeeklyBonus s wb) w = getWeeklyBonusAt s w := by
  unfold getWeeklyBonusAt saveWeeklyBonus
  rw [List.find?_cons_of_neg _ (by simp [Ne.symm hw])]
  exact find?_filter_of_imp _ _ _ (by
    intro x hx
    have hxw : x.weekStart = w := by simpa using hx
    simp [hxw, hw])

lemma getWeeklyBonusAt_weekStart {s : Storage} {w : ℤ} {wb : WeeklyBonus}
    (h : getWeeklyBonusAt s w = some wb) : wb.weekStart = w := by
  unfold getWeeklyBonusAt at h
  simpa using List.find?_some h

lemma getDailyPoints_save_self (s : Storage) (dp : DailyPoints) :
    getDailyPoints (saveDailyPoints s dp) dp.date = some dp := by
  unfold getDailyPoints saveDailyPoints
  exact List.find?_cons_of_pos _ (by simp)

lemma getDailyPoints_save_other (s : Storage) (dp : DailyPoints) (d : ℤ)
    (hd : d ≠ dp.date) :
    getDailyPoints (saveDailyPoints s dp) d = getDailyPoints s d := by
  unfold getDailyPoints saveDailyPoints
  rw [List.find?_cons_of_neg _ (by simp [Ne.symm hd])]
  exact find?_filter_of_imp _ _ _ (by
    intro x hx
    have hxd : x.date = d := by simpa using hx
    simp [hxd, hd])

lemma getDailyPoints_date {s : Storage} {d : ℤ} {dp : DailyPoints}
    (h : getDailyPoints s d = some dp) : dp.date = d := by
  unfold getDailyPoints at h
  simpa using List.find?_some h

lemma getCurrentWeeklyBonus_snd (s : Storage) :
    (getCurrentWeeklyBonus s).2 = s
      ∨ ((getWeeklyBonusAt s s.currentWeekStart = none)
        ∧ (getCurrentWeeklyBonus s).2 = saveWeeklyBonus s
            { weekStart := s.currentWeekStart, availableBonus := 0, usedBonus := 0,
              dailyBreakdown := [] }) := by
  unfold getCurrentWeeklyBonus
  cases h : getWeeklyBonusAt s s.currentWeekStart
  · exact Or.inr ⟨rfl, rfl⟩
  · exact Or.inl rfl

lemma getCurrentWeeklyBonus_fst_weekStart (s : Storage) :
    (getCurrentWeeklyBonus s).1.weekStart = s.currentWeekStart := by
  unfold getCurrentWeeklyBonus
  cases h : getWeeklyBonusAt s s.currentWeekStart
  · rfl
  · exact getWeeklyBonusAt_weekStart h

lemma getDailyPoints_currentWeekly (s : Storage) (d : ℤ) :
    getDailyPoints (getCurrentWeeklyBonus s).2 d = getDailyPoints s d := by
  rcases getCurrentWeeklyBonus_snd s with h | ⟨_, h⟩ <;> rw [h] <;> rfl

lemma calculateDailyPoints_fst_currentWeekly (s : Storage) (d : ℤ) :
    (calculateDailyPoints (getCurrentWeeklyBonus s).2 d).1 = (calculateDailyPoints s d).1 := by
  rcases getCurrentWeeklyBonus_snd s with h | ⟨_, h⟩ <;> rw [h] <;> rfl

lemma streakData_currentWeekly (s : Storage) :
    (getCurrentWeeklyBonus s).2.streakData = s.streakData := by
  rcases getCurrentWeeklyBonus_snd s with h | ⟨_, h⟩ <;> rw [h] <;> rfl

lemma currentWeekStart_currentWeekly (s : Storage) :
    (getCurrentWeeklyBonus s).2.currentWeekStart = s.currentWeekStart := by
  rcases getCurrentWeeklyBonus_snd s with h | ⟨_, h⟩ <;> rw [h] <;> rfl

lemma dailyPointsStore_currentWeekly (s : Storage) :
    (getCurrentWeeklyBonus s).2.dailyPointsStore = s.dailyPointsStore := by
  rcases getCurrentWeeklyBonus_snd s with h | ⟨_, h⟩ <;> rw [h] <;> rfl

lemma getCurrentWeeklyBonus_of_save_current (s : Storage) (wb : WeeklyBonus)
    (hwb : wb.weekStart = s.currentWeekStart) :
    getCurrentWeeklyBonus (saveWeeklyBonus s wb) = (wb, saveWeeklyBonus s wb) := by
  unfold getCurrentWeeklyBonus
  have h2 : (saveWeeklyBonus s wb).currentWeekStart = wb.weekStart := by
    rw [hwb]
    rfl
  have hfind : getWeeklyBonusAt (saveWeeklyBonus s wb) (saveWeeklyBonus s wb).currentWeekStart
      = some wb := by
    rw [h2]
    exact getWeeklyBonusAt_save_self s wb
  rw [hfind]

lemma getCurrentWeeklyBonus_value_stable (s : Storage) :
    (getCurrentWeeklyBonus (getCurrentWeeklyBonus s).2).1 = (getCurrentWeeklyBonus s).1 := by
  rcases getCurrentWeeklyBonus_snd s with h | ⟨hnone, h⟩
  · rw [h]
  · rw [h, getCurrentWeeklyBonus_of_save_current s _ rfl]
    unfold getCurrentWeeklyBonus
    rw [hnone]

/-! ## C3 -/

/-- C3 counterexample: with no stored record for the current week, a failing
`applyBonusToDay` call (insufficient funds) still performs a write — the
lazily created zeroed `WeeklyBonus` record is persisted before the guard. -/
theorem applyBonusToDay_failure_writes_week_record :
    (applyBonusToDay sampleStorage 3 5).1 = Except.error "Not enough bonus available."
      ∧ (applyBonusToDay sampleStorage 3 5).2.weeklyBonusStore
          ≠ sampleStorage.weeklyBonusStore := by
  exact ⟨rfl, by decide⟩

/-- C3 (amended): `applyBonusToDay` fails whenever `amount <= 0` or `amount`
exceeds the current week's `availableBonus`; on such a failure the DailyPoints
and StreakData records are untouched and every weekly ledger value (as read
through the storage interface) is unchanged — the only write that can precede
the guards is `getCurrentWeeklyBonus` lazily persisting a zeroed record for
the current week when none exists; when the current week's record already
exists, the entire storage state is unchanged. -/
theorem applyBonusToDay_failure_leaves_records (s : Storage) (date : ℤ) (amount : ℚ)
    (hfail : amount ≤ 0 ∨ (getCurrentWeeklyBonus s).1.availableBonus < amount) :
    (applyBonusToDay s date amount).1 = Except.error
        (if amount ≤ 0 then "Bonus amount must be positive" else "Not enough bonus available.")
      ∧ (applyBonusToDay s date amount).2.dailyPointsStore = s.dailyPointsStore
      ∧ (applyBonusToDay s date amount).2.streakData = s.streakData
      ∧ (getCurrentWeeklyBonus (applyBonusToDay s date amount).2).1 = (getCurrentWeeklyBonus s).1
      ∧ (applyBonusToDay s date amount).2
          = (if amount ≤ 0 then s else (getCurrentWeeklyBonus s).2)
      ∧ ((getWeeklyBonusAt s s.currentWeekStart).isSome = true
          → (applyBonusToDay s date amount).2 = s) := by
  by_cases h0 : amount ≤ 0
  · have hres : applyBonusToDay s date amount
        = (Except.error "Bonus amount must be positive", s) := by
      unfold applyBonusToDay
      rw [if_pos h0]
    rw [hres, if_pos h0, if_pos h0]
    exact ⟨rfl, rfl, rfl, rfl, rfl, fun _ => rfl⟩
  · have hlt : (getCurrentWeeklyBonus s).1.availableBonus < amount := hfail.resolve_left h0
    have hres : applyBonusToDay s date amount
        = (Except.error "Not enough bonus available.", (getCurrentWeeklyBonus s).2) := by
      unfold applyBonusToDay
      rw [if_neg h0]
      simp only [if_pos hlt]
    rw [hres, if_neg h0, if_neg h0]
    refine ⟨rfl, dailyPointsStore_currentWeekly s, streakData_currentWeekly s,
      getCurrentWeeklyBonus_value_stable s, rfl, ?_⟩
    intro hsome
    rcases getCurrentWeeklyBonus_snd s with h | ⟨hnone, _⟩
    · exact h
    · rw [hnone] at hsome
      exact absurd hsome (by simp)

/-- A state whose current week's record exists with availableBonus 10. -/
def wk10Storage : Storage :=
  { sampleStorage with
    weeklyBonusStore := [{ weekStart := 7, availableBonus := 10, usedBonus := 0,
                           dailyBreakdown := [] }] }

/-- Witness for C3 (amended) at a concrete state where the current week's
record exists with availableBonus 10 and the requested amount is 999. -/
theorem applyBonusToDay_failure_leaves_records_witness :
    ((999 : ℚ) ≤ 0 ∨ (getCurrentWeeklyBonus wk10Storage).1.availableBonus < 999)
      ∧ ((applyBonusToDay wk10Storage 3 999).1 = Except.error
            (if (999 : ℚ) ≤ 0 then "Bonus amount must be positive"
             else "Not enough bonus available.")
        ∧ (applyBonusToDay wk10Storage 3 999).2.dailyPointsStore = wk10Storage.dailyPointsStore
        ∧ (applyBonusToDay wk10Storage 3 999).2.streakData = wk10Storage.streakData
        ∧ (getCurrentWeeklyBonus (applyBonusToDay wk10Storage 3 999).2).1
            = (getCurrentWeeklyBonus wk10Storage).1
        ∧ (applyBonusToDay wk10Storage 3 999).2
            = (if (999 : ℚ) ≤ 0 then wk10Storage else (getCurrentWeeklyBonus wk10Storage).2)
        ∧ ((getWeeklyBonusAt wk10Storage wk10Storage.currentWeekStart).isSome = true
            → (applyBonusToDay wk10Storage 3 999).2 = wk10Storage)) :=
  ⟨Or.inr (by decide),
   applyBonusToDay_failure_leaves_records wk10Storage 3 999 (Or.inr (by decide))⟩

/-! ## C6 -/

/-- The daily record `applyBonusToDay` has in hand after pointsService.ts
lines 138-141: the stored record for the date, or the freshly computed one. -/
def inHandDailyPoints (s : Storage) (date : ℤ) : DailyPoints :=
  match getDailyPoints s date with
  | some dp => dp
  | none => (calculateDailyPoints s date).1

lemma getWeeklyBonusAt_after_updateStreak (t : Storage) (d : ℤ) (p : DailyPoints) (w : ℤ) :
    getWeeklyBonusAt (updateStreak t d p).2 w = getWeeklyBonusAt t w := rfl

lemma getWeeklyBonusAt_after_saveDaily (t : Storage) (p : DailyPoints) (w : ℤ) :
    getWeeklyBonusAt (saveDailyPoints t p) w = getWeeklyBonusAt t w := rfl

lemma getWeeklyBonusAt_after_calc (t : Storage) (d : ℤ) (w : ℤ) :
    getWeeklyBonusAt (calculateDailyPoints t d).2 w = getWeeklyBonusAt t w := rfl

lemma getDailyPoints_after_updateStreak (t : Storage) (d : ℤ) (p : DailyPoints) (d' : ℤ) :
    getDailyPoints (updateStreak t d p).2 d' = getDailyPoints t d' := rfl

lemma getDailyPoints_after_saveWeekly (t : Storage) (wb : WeeklyBonus) (d : ℤ) :
    getDailyPoints (saveWeeklyBonus t wb) d = getDailyPoints t d := rfl

lemma getWeeklyBonusAt_currentWeekly_other (s : Storage) (w : ℤ)
    (hw : w ≠ s.currentWeekStart) :
    getWeeklyBonusAt (getCurrentWeeklyBonus s).2 w = getWeeklyBonusAt s w := by
  rcases getCurrentWeeklyBonus_snd s with h | ⟨_, h⟩
  · rw [h]
  · rw [h]
    exact getWeeklyBonusAt_save_other s _ w (by simpa using hw)

/-- C6: a successful `applyBonusToDay` draws from the currently active week's
ledger regardless of which week `date` belongs to: it decrements that ledger's
`availableBonus` by `amount`, increments `usedBonus`, upserts the
`dailyBreakdown` entry for `date`, leaves every other week's ledger untouched,
rewrites the date's DailyPoints with `bonusApplied += amount` and recomputed
`totalPoints`/`reachedGoal`, and then re-runs the streak update for that date
with the updated record. -/
theorem applyBonusToDay_success_effects (s : Storage) (date : ℤ) (amount : ℚ)
    (h0 : 0 < amount)
    (h1 : amount ≤ (getCurrentWeeklyBonus s).1.availableBonus) :
    (applyBonusToDay s date amount).1 = Except.ok ()
      ∧ getWeeklyBonusAt (applyBonusToDay s date amount).2 s.currentWeekStart
          = some { (getCurrentWeeklyBonus s).1 with
              availableBonus := (getCurrentWeeklyBonus s).1.availableBonus - amount,
              usedBonus := (getCurrentWeeklyBonus s).1.usedBonus + amount,
              dailyBreakdown := bumpUsed (getCurrentWeeklyBonus s).1.dailyBreakdown date amount }
      ∧ (∀ w : ℤ, w ≠ s.currentWeekStart →
          getWeeklyBonusAt (applyBonusToDay s date amount).2 w = getWeeklyBonusAt s w)
      ∧ getDailyPoints (applyBonusToDay s date amount).2 date
          = some { inHandDailyPoints s date with
              bonusApplied := (inHandDailyPoints s date).bonusApplied + amount,
              totalPoints := (inHandDailyPoints s date).earnedPoints
                + ((inHandDailyPoints s date).bonusApplied + amount),
              reachedGoal := decide (100 ≤ (inHandDailyPoints s date).earnedPoints
                + ((inHandDailyPoints s date).bonusApplied + amount)) }
      ∧ (applyBonusToDay s date amount).2.streakData
          = streakStep s.streakData date
              { inHandDailyPoints s date with
                bonusApplied := (inHandDailyPoints s date).bonusApplied + amount,
                totalPoints := (inHandDailyPoints s date).earnedPoints
                  + ((inHandDailyPoints s date).bonusApplied + amount),
                reachedGoal := decide (100 ≤ (inHandDailyPoints s date).earnedPoints
                  + ((inHandDailyPoints s date).bonusApplied + amount)) }
      ∧ (applyBonusToDay s date amount).2.currentWeekStart = s.currentWeekStart := by
  have hng : ¬ amount ≤ 0 := not_le.mpr h0
  have hnlt : ¬ (getCurrentWeeklyBonus s).1.availableBonus < amount := not_lt.mpr h1
  have hws : (getCurrentWeeklyBonus s).1.weekStart = s.currentWeekStart :=
    getCurrentWeeklyBonus_fst_weekStart s
  simp only [applyBonusToDay, if_neg hng, if_neg hnlt]
  cases hd : getDailyPoints (getCurrentWeeklyBonus s).2 date with
  | some dp =>
    have hd0 : getDailyPoints s date = some dp := by
      rw [← getDailyPoints_currentWeekly]
      exact hd
    have hin : inHandDailyPoints s date = dp := by
      unfold inHandDailyPoints
      rw [hd0]
    have hdd : dp.date = date := getDailyPoints_date hd0
    dsimp only
    refine ⟨trivial, ?_, ?_, ?_, ?_, ?_⟩
    · rw [getWeeklyBonusAt_after_updateStreak, ← hws]
      exact getWeeklyBonusAt_save_self _ _
    · intro w hw
      have hw' : w ≠ (getCurrentWeeklyBonus s).1.weekStart := by
        rw [hws]
        exact hw
      rw [getWeeklyBonusAt_after_updateStreak]
      rw [getWeeklyBonusAt_save_other]
      · rw [getWeeklyBonusAt_after_saveDaily]
        exact getWeeklyBonusAt_currentWeekly_other s w hw
      · exact hw'
    · rw [hin, getDailyPoints_after_updateStreak, getDailyPoints_after_saveWeekly, ← hdd]
      exact getDailyPoints_save_self _ _
    · rw [hin]
      exact congrArg (fun t => streakStep t date _) (streakData_currentWeekly s)
    · exact currentWeekStart_currentWeekly s
  | none =>
    have hd0 : getDailyPoints s date = none := by
      rw [← getDailyPoints_currentWeekly]
      exact hd
    have hin : inHandDailyPoints s date = (calculateDailyPoints s date).1 := by
      unfold inHandDailyPoints
      rw [hd0]
    have hc : (calculateDailyPoints (getCurrentWeeklyBonus s).2 date).1
        = (calculateDailyPoints s date).1 := calculateDailyPoints_fst_currentWeekly s date
    dsimp only
    refine ⟨trivial, ?_, ?_, ?_, ?_, ?_⟩
    · rw [getWeeklyBonusAt_after_updateStreak, ← hws]
      exact getWeeklyBonusAt_save_self _ _
    · intro w hw
      have hw' : w ≠ (getCurrentWeeklyBonus s).1.weekStart := by
        rw [hws]
        exact hw
      rw [getWeeklyBonusAt_after_updateStreak]
      rw [getWeeklyBonusAt_save_other]
      · rw [getWeeklyBonusAt_after_saveDaily, getWeeklyBonusAt_after_calc]
        exact getWeeklyBonusAt_currentWeekly_other s w hw
      · exact hw'
    · rw [hin, hc, getDailyPoints_after_updateStreak, getDailyPoints_after_saveWeekly]
      exact getDailyPoints_save_self _ _
    · rw [hin, hc]
      exact congrArg (fun t => streakStep t date _) (streakData_currentWeekly s)
    · exact currentWeekStart_currentWeekly s

/-- Witness for C6 at a concrete state with availableBonus 10 and amount 5. -/
theorem applyBonusToDay_success_effects_witness :
    ((0 : ℚ) < 5 ∧ (5 : ℚ) ≤ (getCurrentWeeklyBonus wk10Storage).1.availableBonus)
      ∧ ((applyBonusToDay wk10Storage 3 5).1 = Except.ok ()
        ∧ getWeeklyBonusAt (applyBonusToDay wk10Storage 3 5).2 wk10Storage.currentWeekStart
            = some { (getCurrentWeeklyBonus wk10Storage).1 with
                availableBonus := (getCurrentWeeklyBonus wk10Storage).1.availableBonus - 5,
                usedBonus := (getCurrentWeeklyBonus wk10Storage).1.usedBonus + 5,
                dailyBreakdown :=
                  bumpUsed (getCurrentWeeklyBonus wk10Storage).1.dailyBreakdown 3 5 }
        ∧ (∀ w : ℤ, w ≠ wk10Storage.currentWeekStart →
            getWeeklyBonusAt (applyBonusToDay wk10Storage 3 5).2 w
              = getWeeklyBonusAt wk10Storage w)
        ∧ getDailyPoints (applyBonusToDay wk10Storage 3 5).2 3
            = some { inHandDailyPoints wk10Storage 3 with
                bonusApplied := (inHandDailyPoints wk10Storage 3).bonusApplied + 5,
                totalPoints := (inHandDailyPoints wk10Storage 3).earnedPoints
                  + ((inHandDailyPoints wk10Storage 3).bonusApplied + 5),
                reachedGoal := decide (100 ≤ (inHandDailyPoints wk10Storage 3).earnedPoints
                  + ((inHandDailyPoints wk10Storage 3).bonusApplied + 5)) }
        ∧ (applyBonusToDay wk10Storage 3 5).2.streakData
            = streakStep wk10Storage.streakData 3
                { inHandDailyPoints wk10Storage 3 with
                  bonusApplied := (inHandDailyPoints wk10Storage 3).bonusApplied + 5,
                  totalPoints := (inHandDailyPoints wk10Storage 3).earnedPoints
                    + ((inHandDailyPoints wk10Storage 3).bonusApplied + 5),
                  reachedGoal := decide (100 ≤ (inHandDailyPoints wk10Storage 3).earnedPoints
                    + ((inHandDailyPoints wk10Storage 3).bonusApplied + 5)) }
        ∧ (applyBonusToDay wk10Storage 3 5).2.currentWeekStart
            = wk10Storage.currentWeekStart) :=
  ⟨⟨by decide, by decide⟩,
   applyBonusToDay_success_effects wk10Storage 3 5 (by decide) (by decide)⟩

/-! ## C4 -/

/-- The engine operations that touch the persisted records, as invoked by the
orchestrator / UI layer. -/
inductive LedgerOp where
  | calcDaily (date : ℤ)
  | applyBonus (date : ℤ) (amount : ℚ)
  | addBonus (date : ℤ) (bonusEarned : ℚ)
  | streakUpd (date : ℤ) (dp : DailyPoints)
  | recalc (date : ℤ)
  | checkReset
deriving DecidableEq, Repr

/-- Run one engine operation against the storage state. -/
def runOp (s : Storage) : LedgerOp → Storage
  | LedgerOp.calcDaily date => (calculateDailyPoints s date).2
  | LedgerOp.applyBonus date amount => (applyBonusToDay s date amount).2
  | LedgerOp.addBonus date bonusEarned => addBonusToWeek s date bonusEarned
  | LedgerOp.streakUpd date dp => (updateStreak s date dp).2
  | LedgerOp.recalc date => recalculateDayPoints s date
  | LedgerOp.checkReset => checkAndResetWeeklyBonus s

/-- Every stored weekly ledger has `availableBonus` within `[0, 200]`. -/
def WeeklyInRange (s : Storage) : Prop :=
  ∀ wb ∈ s.weeklyBonusStore, 0 ≤ wb.availableBonus ∧ wb.availableBonus ≤ 200

/-- A state whose current week's record exists with availableBonus 190. -/
def wk190Storage : Storage :=
  { sampleStorage with
    weeklyBonusStore := [{ weekStart := 7, availableBonus := 190, usedBonus := 0,
                           dailyBreakdown := [] }] }

lemma weeklyInRange_save (s : Storage) (wb : WeeklyBonus) (h : WeeklyInRange s)
    (hwb : 0 ≤ wb.availableBonus ∧ wb.availableBonus ≤ 200) :
    WeeklyInRange (saveWeeklyBonus s wb) := by
  intro x hx
  rcases List.mem_cons.mp hx with rfl | hx'
  · exact hwb
  · exact h x (List.mem_of_mem_filter hx')

lemma weeklyInRange_currentWeekly (s : Storage) (h : WeeklyInRange s) :
    WeeklyInRange (getCurrentWeeklyBonus s).2 := by
  rcases getCurrentWeeklyBonus_snd s with heq | ⟨_, heq⟩
  · rw [heq]
    exact h
  · rw [heq]
    exact weeklyInRange_save s _ h ⟨by norm_num, by norm_num⟩

lemma getCurrentWeeklyBonus_fst_bounds (s : Storage) (h : WeeklyInRange s) :
    0 ≤ (getCurrentWeeklyBonus s).1.availableBonus
      ∧ (getCurrentWeeklyBonus s).1.availableBonus ≤ 200 := by
  unfold getCurrentWeeklyBonus
  cases hw : getWeeklyBonusAt s s.currentWeekStart with
  | none => exact ⟨by norm_num, by norm_num⟩
  | some wb =>
    unfold getWeeklyBonusAt at hw
    exact h wb (List.mem_of_find?_eq_some hw)

lemma getCurrentWeeklyBonus_fst_eq_of (t s : Storage)
    (hstore : t.weeklyBonusStore = s.weeklyBonusStore)
    (hcw : t.currentWeekStart = s.currentWeekStart) :
    (getCurrentWeeklyBonus t).1 = (getCurrentWeeklyBonus s).1 := by
  unfold getCurrentWeeklyBonus getWeeklyBonusAt
  rw [hstore, hcw]
  cases hfind : s.weeklyBonusStore.find? (fun wb => wb.weekStart == s.currentWeekStart) with
  | none => rfl
  | some wb => rfl

lemma getCurrentWeeklyBonus_fst_after_updateStreak (t : Storage) (d : ℤ) (p : DailyPoints) :
    (getCurrentWeeklyBonus (updateStreak t d p).2).1 = (getCurrentWeeklyBonus t).1 :=
  getCurrentWeeklyBonus_fst_eq_of _ _ rfl rfl

lemma getCurrentWeeklyBonus_fst_after_saveDaily (t : Storage) (p : DailyPoints) :
    (getCurrentWeeklyBonus (saveDailyPoints t p)).1 = (getCurrentWeeklyBonus t).1 :=
  getCurrentWeeklyBonus_fst_eq_of _ _ rfl rfl

lemma getCurrentWeeklyBonus_fst_after_calc (t : Storage) (d : ℤ) :
    (getCurrentWeeklyBonus (calculateDailyPoints t d).2).1 = (getCurrentWeeklyBonus t).1 :=
  getCurrentWeeklyBonus_fst_eq_of _ _ rfl rfl

lemma avail_after_addBonus (s : Storage) (d : ℤ) (e : ℚ) (he : 0 < e) :
    (getCurrentWeeklyBonus (addBonusToWeek s d e)).1
      = { (getCurrentWeeklyBonus s).1 with
          availableBonus := min ((getCurrentWeeklyBonus s).1.availableBonus + e) 200,
          dailyBreakdown := bumpEarned (getCurrentWeeklyBonus s).1.dailyBreakdown d e } := by
  simp only [addBonusToWeek, if_neg (not_le.mpr he)]
  rw [getCurrentWeeklyBonus_of_save_current]
  exact (getCurrentWeeklyBonus_fst_weekStart s).trans (currentWeekStart_currentWeekly s).symm

lemma avail_after_applyBonus_success (s : Storage) (d : ℤ) (a : ℚ)
    (h0 : ¬ a ≤ 0) (h1 : ¬ (getCurrentWeeklyBonus s).1.availableBonus < a) :
    (getCurrentWeeklyBonus (applyBonusToDay s d a).2).1.availableBonus
      = (getCurrentWeeklyBonus s).1.availableBonus - a := by
  simp only [applyBonusToDay, if_neg h0, if_neg h1]
  cases hd : getDailyPoints (getCurrentWeeklyBonus s).2 d with
  | some dp =>
    dsimp only
    rw [getCurrentWeeklyBonus_fst_after_updateStreak, getCurrentWeeklyBonus_of_save_current]
    exact (getCurrentWeeklyBonus_fst_weekStart s).trans (currentWeekStart_currentWeekly s).symm
  | none =>
    dsimp only
    rw [getCurrentWeeklyBonus_fst_after_updateStreak, getCurrentWeeklyBonus_of_save_current]
    exact (getCurrentWeeklyBonus_fst_weekStart s).trans (currentWeekStart_currentWeekly s).symm

lemma addBonus_preserves_range (s : Storage) (d : ℤ) (e : ℚ) (h : WeeklyInRange s) :
    WeeklyInRange (addBonusToWeek s d e) := by
  unfold addBonusToWeek
  split_ifs with he
  · exact h
  · apply weeklyInRange_save _ _ (weeklyInRange_currentWeekly s h)
    have hb := getCurrentWeeklyBonus_fst_bounds s h
    constructor
    · exact le_min (by linarith [hb.1]) (by norm_num)
    · exact min_le_right _ _

lemma applyBonus_preserves_range (s : Storage) (d : ℤ) (a : ℚ) (h : WeeklyInRange s) :
    WeeklyInRange (applyBonusToDay s d a).2 := by
  by_cases h0 : a ≤ 0
  · simp only [applyBonusToDay, if_pos h0]
    exact h
  · by_cases h1 : (getCurrentWeeklyBonus s).1.availableBonus < a
    · simp only [applyBonusToDay, if_neg h0, if_pos h1]
      exact weeklyInRange_currentWeekly s h
    · simp only [applyBonusToDay, if_neg h0, if_neg h1]
      have hb := getCurrentWeeklyBonus_fst_bounds s h
      have hbounds : 0 ≤ (getCurrentWeeklyBonus s).1.availableBonus - a
          ∧ (getCurrentWeeklyBonus s).1.availableBonus - a ≤ 200 := by
        constructor
        · linarith [not_lt.mp h1]
        · linarith [hb.2, not_le.mp h0]
      cases hd : getDailyPoints (getCurrentWeeklyBonus s).2 d with
      | some dp =>
        dsimp only
        exact weeklyInRange_save _ _ (weeklyInRange_currentWeekly s h) hbounds
      | none =>
        dsimp only
        exact weeklyInRange_save _ _ (weeklyInRange_currentWeekly s h) hbounds

lemma runOp_preserves_range (s : Storage) (op : LedgerOp) (h : WeeklyInRange s) :
    WeeklyInRange (runOp s op) := by
  cases op with
  | calcDaily d => exact h
  | streakUpd d p => exact h
  | checkReset => exact weeklyInRange_currentWeekly s h
  | addBonus d e => exact addBonus_preserves_range s d e h
  | applyBonus d a => exact applyBonus_preserves_range s d a h
  | recalc d =>
    show WeeklyInRange (updateStreak _ d _).2
    have h1 : WeeklyInRange (calculateDailyPoints s d).2 := h
    split_ifs with hbe
    · exact addBonus_preserves_range _ d _ h1
    · exact h1

lemma addBonus_avail_mono (s : Storage) (d : ℤ) (e : ℚ) (h : WeeklyInRange s) :
    (getCurrentWeeklyBonus s).1.availableBonus
      ≤ (getCurrentWeeklyBonus (addBonusToWeek s d e)).1.availableBonus := by
  by_cases he : e ≤ 0
  · simp only [addBonusToWeek, if_pos he]
    exact le_refl _
  · have he' : 0 < e := not_le.mp he
    rw [avail_after_addBonus s d e he']
    have hb := getCurrentWeeklyBonus_fst_bounds s h
    exact le_min (by linarith) hb.2

/-- C4: the weekly pool stays within [0, 200] under every sequence of engine
operations; `addBonusToWeek` is a no-op for non-positive amounts and otherwise
caps the pool at 200 (190 + 50 gives exactly 200, the excess silently
discarded); every operation other than `applyBonusToDay` leaves the current
week's `availableBonus` non-decreasing; and `applyBonusToDay` never drives it
below 0 thanks to the overdraft guard. -/
theorem weekly_pool_stays_in_range :
    (∀ (s : Storage) (ops : List LedgerOp), WeeklyInRange s
        → WeeklyInRange (ops.foldl runOp s))
    ∧ (∀ (s : Storage) (date : ℤ) (e : ℚ), e ≤ 0 → addBonusToWeek s date e = s)
    ∧ (∀ (s : Storage) (date : ℤ) (e : ℚ), 0 < e →
        (getAvailableBonus (addBonusToWeek s date e)).1
          = min ((getAvailableBonus s).1 + e) 200)
    ∧ (getAvailableBonus (addBonusToWeek wk190Storage 3 50)).1 = 200
    ∧ (∀ (s : Storage) (op : LedgerOp), WeeklyInRange s
        → (∀ (d : ℤ) (a : ℚ), op ≠ LedgerOp.applyBonus d a)
        → (getAvailableBonus s).1 ≤ (getAvailableBonus (runOp s op)).1)
    ∧ (∀ (s : Storage) (date : ℤ) (amount : ℚ), WeeklyInRange s
        → 0 ≤ (getAvailableBonus (applyBonusToDay s date amount).2).1) := by
  have hcap : ∀ (s : Storage) (date : ℤ) (e : ℚ), 0 < e →
      (getAvailableBonus (addBonusToWeek s date e)).1
        = min ((getAvailableBonus s).1 + e) 200 := by
    intro s date e he
    show (getCurrentWeeklyBonus (addBonusToWeek s date e)).1.availableBonus = _
    rw [avail_after_addBonus s date e he]
    rfl
  refine ⟨?_, ?_, hcap, ?_, ?_, ?_⟩
  · intro s ops h
    induction ops generalizing s with
    | nil => exact h
    | cons op rest ih => exact ih _ (runOp_preserves_range s op h)
  · intro s date e he
    unfold addBonusToWeek
    rw [if_pos he]
  · rw [hcap wk190Storage 3 50 (by norm_num)]
    have hv : (getAvailableBonus wk190Storage).1 = 190 := by decide
    rw [hv]
    norm_num
  · intro s op h hne
    cases op with
    | calcDaily d =>
      exact le_of_eq (congrArg WeeklyBonus.availableBonus
        (getCurrentWeeklyBonus_fst_after_calc s d)).symm
    | streakUpd d p =>
      exact le_of_eq (congrArg WeeklyBonus.availableBonus
        (getCurrentWeeklyBonus_fst_after_updateStreak s d p)).symm
    | checkReset =>
      exact le_of_eq (congrArg WeeklyBonus.availableBonus
        (getCurrentWeeklyBonus_value_stable s)).symm
    | addBonus d e => exact addBonus_avail_mono s d e h
    | applyBonus d a => exact absurd rfl (hne d a)
    | recalc d =>
      show (getCurrentWeeklyBonus s).1.availableBonus
        ≤ (getCurrentWeeklyBonus (updateStreak _ d _).2).1.availableBonus
      rw [getCurrentWeeklyBonus_fst_after_updateStreak]
      have h1 : WeeklyInRange (calculateDailyPoints s d).2 := h
      have hstep : (getCurrentWeeklyBonus s).1.availableBonus
          = (getCurrentWeeklyBonus (calculateDailyPoints s d).2).1.availableBonus :=
        (congrArg WeeklyBonus.availableBonus (getCurrentWeeklyBonus_fst_after_calc s d)).symm
      rw [hstep]
      split_ifs with hbe
      · exact addBonus_avail_mono _ d _ h1
      · exact le_refl _
  · intro s date amount h
    by_cases h0 : amount ≤ 0
    · show 0 ≤ (getCurrentWeeklyBonus (applyBonusToDay s date amount).2).1.availableBonus
      simp only [applyBonusToDay, if_pos h0]
      exact (getCurrentWeeklyBonus_fst_bounds s h).1
    · by_cases h1 : (getCurrentWeeklyBonus s).1.availableBonus < amount
      · show 0 ≤ (getCurrentWeeklyBonus (applyBonusToDay s date amount).2).1.availableBonus
        simp only [applyBonusToDay, if_neg h0, if_pos h1]
        rw [getCurrentWeeklyBonus_value_stable s]
        exact (getCurrentWeeklyBonus_fst_bounds s h).1
      · show 0 ≤ (getCurrentWeeklyBonus (applyBonusToDay s date amount).2).1.availableBonus
        rw [avail_after_applyBonus_success s date amount h0 h1]
        linarith [not_lt.mp h1]

/-- Witness for C4 at concrete states, ops and amounts. -/
theorem weekly_pool_stays_in_range_witness :
    (WeeklyInRange wk10Storage
        ∧ WeeklyInRange ([LedgerOp.addBonus 3 50, LedgerOp.checkReset].foldl runOp wk10Storage))
      ∧ ((50 : ℚ) ≤ 0 → False)
      ∧ ((0 : ℚ) < 50
        ∧ (getAvailableBonus (addBonusToWeek wk10Storage 3 50)).1
            = min ((getAvailableBonus wk10Storage).1 + 50) 200)
      ∧ ((∀ (d : ℤ) (a : ℚ), LedgerOp.checkReset ≠ LedgerOp.applyBonus d a)
        ∧ (getAvailableBonus wk10Storage).1
            ≤ (getAvailableBonus (runOp wk10Storage LedgerOp.checkReset)).1)
      ∧ 0 ≤ (getAvailableBonus (applyBonusToDay wk10Storage 3 5).2).1 := by
  have hinv : WeeklyInRange wk10Storage := by
    intro wb hwb
    have hwb' : wb
        = { weekStart := 7, availableBonus := 10, usedBonus := 0, dailyBreakdown := [] } := by
      simpa [wk10Storage, sampleStorage] using hwb
    rw [hwb']
    exact ⟨by norm_num, by norm_num⟩
  refine ⟨⟨hinv, weekly_pool_stays_in_range.1 wk10Storage
      [LedgerOp.addBonus 3 50, LedgerOp.checkReset] hinv⟩,
    ?_, ⟨by norm_num, weekly_pool_stays_in_range.2.2.1 wk10Storage 3 50 (by norm_num)⟩,
    ⟨fun d a h => LedgerOp.noConfusion h,
      weekly_pool_stays_in_range.2.2.2.2.1 wk10Storage LedgerOp.checkReset hinv
        (fun d a h => LedgerOp.noConfusion h)⟩,
    weekly_pool_stays_in_range.2.2.2.2.2 wk10Storage 3 5 hinv⟩
  intro hcontra
  norm_num at hcontra
